import Mathlib

/-!
Verification development for the json-schema-tools dereferencer
(`src/index.ts`, given here as `src/unnamed/part_003`).

The dereferencer operates on JSON Schema documents: `JSONSchema` in the
TypeScript source is `boolean | JSONSchemaObject`, where a
`JSONSchemaObject` is a plain JavaScript object whose values are again
JSON values (possibly schemas).  We embed documents as the inductive
type `JSch` below, a tagged variant Boolean / String / Number / Null /
Array / Object, plus `undef` standing for the JavaScript value
`undefined`, which the source can materialize through a missed cache
lookup (`this.refCache[s.$ref]` for an uncollected ref) and then feed
to `copyOrNot`.

Stateful and asynchronous aspects of the source are embedded as
follows.  The code awaits every loader promise and every nested
sub-resolution inside its `for` loop, so one resolution session is
sequential; we model it by explicit state passing.  The session state
`RState` carries the shared `refCache` (an association list, insertion
ordered, keys never removed — JavaScript object semantics) and the
trace of Loader invocations.  The external reference resolver
(`referenceResolver.resolve`, package `@json-schema-tools/reference-resolver`)
is a parameter `Loader`.  Recursion through `new Dereferencer(...)` is
bounded by an explicit `fuel : Nat`; exhausting the fuel returns the
distinguished error `DerefError.outOfFuel`, standing for a
non-terminating run (the JavaScript original recurses without bound on
such inputs).  In-place mutation (`traverse(..., { mutable: true })`)
is rendered functionally: the substitution pass returns the updated
document, and object identity of shared results is expressed through
the cache: a position resolved from ref `r` holds exactly the value of
the single cache slot for `r` (the arena/handle reading of identity
sanctioned by the design notes of the specification).

The generic tree walker `traverse` (package `@json-schema-tools/traverse`)
is an external collaborator whose code is not part of this repository;
following the specification (§4.1) it is modelled as a full traversal
of Object/Array nodes that does not descend into Boolean leaves, with
in-place (bottom-up) mutation when requested.
-/

/-- Embedding of a JSON document as handled by the dereferencer:
a tagged variant of Booleans, strings, numbers, null, arrays and
objects (ordered key/value lists), plus the JavaScript `undefined`. -/
inductive JSch where
  | bool (b : Bool)
  | str (s : String)
  | num (n : Int)
  | null
  | undef
  | arr (xs : List JSch)
  | obj (kvs : List (String × JSch))

/-- First-match lookup of a key in an object's key/value list
(JavaScript property access on an object with unique keys). -/
def lookupKV : List (String × JSch) → String → Option JSch
  | [], _ => none
  | (k₀, v) :: rest, k => if k₀ = k then some v else lookupKV rest k

/-- The check `schema === true || schema === false` from the source. -/
def isBoolD : JSch → Bool
  | .bool _ => true
  | _ => false

/-- JavaScript truthiness of a document value, used by the source in
`if (s.$ref && ...)` (collectRefs) and `schema.$id` (constructor). -/
def truthy : JSch → Bool
  | .bool b => b
  | .str s => if s = "" then false else true
  | .num n => if n = 0 then false else true
  | .null => false
  | .undef => false
  | .arr _ => true
  | .obj _ => true

mutual
/-- JavaScript `ToString` of a value, as performed when a value is used
as a property key (`this.refCache[s.$ref]` with a non-string `$ref`).
Objects render as the usual `[object Object]`; arrays join their
elements with commas. -/
def jsKeyStr : JSch → String
  | .bool b => if b then "true" else "false"
  | .str s => s
  | .num n => toString n
  | .null => "null"
  | .undef => "undefined"
  | .arr xs => jsKeyStrL xs
  | .obj _ => "[object Object]"

/-- JavaScript `Array.prototype.toString`: elements joined with commas,
`null` and `undefined` rendering as empty strings. -/
def jsKeyStrL : List JSch → String
  | [] => ""
  | [x] =>
      match x with
      | .null => ""
      | .undef => ""
      | x => jsKeyStr x
  | x :: y :: rest =>
      (match x with
       | .null => ""
       | .undef => ""
       | x => jsKeyStr x) ++ "," ++ jsKeyStrL (y :: rest)
end

mutual
/-- Model of `safeStringify` (package fast-safe-stringify) as used by
`NonStringRefError`: a JSON rendering of the offending node.  Cyclic
structures cannot arise for the finite trees of this embedding, so the
safe variant coincides with plain JSON serialization. -/
def stringify : JSch → String
  | .bool b => if b then "true" else "false"
  | .str s => "\"" ++ s ++ "\""
  | .num n => toString n
  | .null => "null"
  | .undef => "null"
  | .arr xs => "[" ++ stringifyL xs ++ "]"
  | .obj kvs => "\x7b" ++ stringifyKV kvs ++ "\x7d"

/-- JSON rendering of an array's elements, comma separated. -/
def stringifyL : List JSch → String
  | [] => ""
  | [x] => stringify x
  | x :: y :: rest => stringify x ++ "," ++ stringifyL (y :: rest)

/-- JSON rendering of an object's properties, comma separated. -/
def stringifyKV : List (String × JSch) → String
  | [] => ""
  | [(k, v)] => "\"" ++ k ++ "\":" ++ stringify v
  | (k, v) :: p :: rest => "\"" ++ k ++ "\":" ++ stringify v ++ "," ++ stringifyKV (p :: rest)
end

/-- Object spread `{...s2, ...kvs1}` from `copyOrNot`: the target
object's keys in their order, each overridden by the sibling object's
value for the same key when present, followed by the sibling object's
remaining keys in their order.  Spreading a non-object target
contributes no properties (the source only reaches this with an object
or, through a missed cache lookup, `undefined`). -/
def spreadInto (s2 : JSch) (kvs1 : List (String × JSch)) : List (String × JSch) :=
  match s2 with
  | .obj kvs2 =>
      kvs2.map (fun kv =>
        match lookupKV kvs1 kv.1 with
        | some w => (kv.1, w)
        | none => kv)
      ++ kvs1.filter (fun kv => (lookupKV kvs2 kv.1).isNone)
  | _ => kvs1

/-- The statement `delete reflessCopy.$ref` from `copyOrNot`: removal
of a property from an object's key/value list. -/
def removeKey (k : String) (kvs : List (String × JSch)) : List (String × JSch) :=
  kvs.filter (fun kv => kv.1 ≠ k)

/-- Does this object node have a `$ref` property whose value is not
`undefined`?  This is the check `s.$ref !== undefined` of the source. -/
def hasDefinedRef (kvs : List (String × JSch)) : Bool :=
  match lookupKV kvs "$ref" with
  | some .undef => false
  | some _ => true
  | none => false

/-- Translation of `copyOrNot` (src/unnamed/part_003 lines 56-71): if
the reference node `s1` has a defined `$ref`, more than one key, and
the resolved target `s2` is not a Boolean, build a fresh object
`{...s2, ...s1}` and delete `$ref` from it; otherwise return `s2`
itself. -/
def copyOrNot (s1 : JSch) (s2 : JSch) : JSch :=
  match s1 with
  | .obj kvs =>
      if hasDefinedRef kvs = true ∧ 1 < kvs.length ∧ isBoolD s2 = false then
        .obj (removeKey "$ref" (spreadInto s2 kvs))
      else s2
  | _ => s2

/-- Errors of the embedding.  `nonStringRef` carries the serialized
rendering of the offending node (`NonStringRefError`), `loaderFail`
carries an error surfaced by the external reference resolver,
`missingRootSchema` is the `Error` thrown at line 141 of the source,
and `outOfFuel` marks an unbounded recursion cut off by the fuel. -/
inductive DerefError where
  | nonStringRef (rendered : String)
  | missingRootSchema
  | loaderFail (msg : String)
  | outOfFuel
deriving DecidableEq, Repr

/-- The check performed by the `collectRefs` traversal callback at one
object node (lines 200-206): when the `$ref` property is truthy
(`s.$ref &&`) and not yet recorded (`refs.indexOf(s.$ref) === -1`,
which a non-string value never is), fail with `NonStringRefError`
(carrying the serialized node) if it is not a string, and record it
otherwise; falsy `$ref` values are skipped. -/
def collectStep (kvs : List (String × JSch)) (acc : List String) :
    Except DerefError (List String) :=
  match lookupKV kvs "$ref" with
  | some v =>
      if truthy v = true then
        match v with
        | .str r => if r ∈ acc then .ok acc else .ok (acc ++ [r])
        | _ => .error (.nonStringRef (stringify (.obj kvs)))
      else .ok acc
  | none => .ok acc

mutual
/-- Translation of `Dereferencer.collectRefs` (lines 193-211): a full
traversal collecting the distinct `$ref` strings in discovery order,
applying `collectStep` at each object node and then descending into
its property values.  Boolean nodes are returned as-is and not
descended into. -/
def collectGo : JSch → List String → Except DerefError (List String)
  | .bool _, acc => .ok acc
  | .obj kvs, acc =>
      match collectStep kvs acc with
      | .error e => .error e
      | .ok acc₁ => collectKV kvs acc₁
  | .arr xs, acc => collectL xs acc
  | _, acc => .ok acc

/-- Traversal of an object's property values, threading the ref
accumulator left to right. -/
def collectKV : List (String × JSch) → List String → Except DerefError (List String)
  | [], acc => .ok acc
  | (_, v) :: rest, acc =>
      match collectGo v acc with
      | .error e => .error e
      | .ok acc₁ => collectKV rest acc₁

/-- Traversal of an array's elements, threading the ref accumulator
left to right. -/
def collectL : List JSch → List String → Except DerefError (List String)
  | [], acc => .ok acc
  | v :: rest, acc =>
      match collectGo v acc with
      | .error e => .error e
      | .ok acc₁ => collectL rest acc₁
end

/-- Ref collection of a whole document, starting from an empty
accumulator (the `refs` array of `collectRefs`). -/
def collectRefsE (s : JSch) : Except DerefError (List String) :=
  collectGo s []

/-- Construction-time options (`DereferencerOptions`).  The
`refCache` option is not a field here: the source always hands the
session's shared cache to recursively constructed sub-dereferencers
(`subDerefferOpts`, lines 151-154), and at the top level the
caller-supplied (or fresh, empty) cache is the `cache` component of
the initial session state `RState` below.  The `protocolHandlerMap`
option only mutates a process-global handler registry inside the
external reference resolver and is subsumed by the `Loader`
parameter. -/
structure DOptions where
  recursive : Option Bool
  rootSchema : Option JSch

/-- The options object `{}` defaulted by the constructor signature. -/
def emptyOptions : DOptions := { recursive := none, rootSchema := none }

/-- The check `schema !== true && schema !== false && schema.$id` needs
the truthiness of the `$id` property of an object schema (line 91). -/
def hasTruthyId : JSch → Bool
  | .obj kvs => truthy ((lookupKV kvs "$id").getD JSch.undef)
  | _ => false

/-- Translation of the option-normalizing part of the
`Dereferencer` constructor (lines 82-107).  The constructor mutates
the caller-supplied options object in place; functionally, the
returned record is that same object after the writes, so the writes
are visible to the caller and to any later consumer of the object:
`recursive` is set to `true` when undefined, `rootSchema` is set to
the input schema when undefined, and additionally whenever the
non-Boolean input schema has a truthy `$id` property
(`schema.$id`, line 91). -/
def ctorOptions (schema : JSch) (options : DOptions) : DOptions :=
  let o₁ := match options.recursive with
    | none => { options with recursive := some true }
    | some _ => options
  let o₂ := match o₁.rootSchema with
    | none => { o₁ with rootSchema := some schema }
    | some _ => o₁
  if isBoolD schema = false ∧ hasTruthyId schema = true then
    { o₂ with rootSchema := some schema }
  else o₂

/-- Session state: the shared `refCache` (ref string to resolved
document, insertion ordered) and the trace of Loader invocations made
so far, in order.  The cache is shared by reference between a
dereferencer and every sub-dereferencer it spawns; this embedding
threads it explicitly. -/
structure RState where
  cache : List (String × JSch)
  calls : List String

/-- A fresh session state: empty cache, no loader calls. -/
def initState : RState := { cache := [], calls := [] }

/-- Cache read `this.refCache[r]`. -/
def cacheGet (st : RState) (r : String) : Option JSch :=
  lookupKV st.cache r

/-- Property write on the cache object: overwrite in place when the
key exists, append otherwise.  Keys are never removed. -/
def setKV : List (String × JSch) → String → JSch → List (String × JSch)
  | [], k, v => [(k, v)]
  | (k₀, v₀) :: rest, k, v =>
      if k₀ = k then (k, v) :: rest else (k₀, v₀) :: setKV rest k v

/-- Cache write `this.refCache[r] = v`. -/
def cacheSet (st : RState) (r : String) (v : JSch) : RState :=
  { st with cache := setKV st.cache r v }

/-- Record one Loader invocation for ref `r` in the session trace. -/
def recordCall (st : RState) (r : String) : RState :=
  { st with calls := st.calls ++ [r] }

/-- The external reference resolver
(`referenceResolver.resolve(ref, rootSchema)`): from a ref string and
the configured root schema to a resolved document or an error.  It is
a parameter of the embedding; the source treats it as an injected
capability. -/
def Loader : Type := String → Option JSch → Except DerefError JSch

mutual
/-- The substitution pass of `_resolve` (lines 173-182): `traverse`
with `mutable: true` rewrites the document bottom-up, replacing every
node with a defined `$ref` by `copyOrNot(s, this.refCache[s.$ref])`.
A missed cache lookup yields the JavaScript `undefined`, embedded as
`JSch.undef`.  Boolean nodes are returned unchanged and not descended
into; nodes without a defined `$ref` are left untouched. -/
def substTree (st : RState) : JSch → JSch
  | .obj kvs =>
      let kvs₁ := substKVs st kvs
      if hasDefinedRef kvs₁ = true then
        copyOrNot (.obj kvs₁)
          ((cacheGet st (jsKeyStr ((lookupKV kvs₁ "$ref").getD JSch.undef))).getD JSch.undef)
      else .obj kvs₁
  | .arr xs => .arr (substL st xs)
  | x => x

/-- Substitution over an object's property values. -/
def substKVs (st : RState) : List (String × JSch) → List (String × JSch)
  | [] => []
  | (k, v) :: rest => (k, substTree st v) :: substKVs st rest

/-- Substitution over an array's elements. -/
def substL (st : RState) : List JSch → List JSch
  | [] => []
  | v :: rest => substTree st v :: substL st rest
end

/-- After `subDereffer._resolve()` returns, the parent's local
variable `fetched` (line 161) denotes: the original fetched object
when it had a root `$ref` (the sub-dereferencer then only reassigned
its own `schema` field, line 171), and otherwise the substituted
document, because the mutable traversal rewrote `fetched` in place. -/
def fetchedAfterSub (fetchedOrig subFetched : JSch) : JSch :=
  match fetchedOrig with
  | .obj kvs => if hasDefinedRef kvs = true then .obj kvs else subFetched
  | x => x

/-- The second half of a `for (const ref of unfetchedRefs)` loop
iteration (lines 150-167), once the document for `ref` is at hand.
When `recursive` is enabled, the fetched document is not a Boolean and
the ref is not `"#"`, construct a sub-dereferencer over the fetched
document with `subDerefferOpts` (a copy of the options, sharing the
cache; its construction re-runs ref collection and can fail with
`NonStringRefError`) and, when it collected any refs, resolve it and
store `copyOrNot(fetched, subFetched)` under the ref; in every other
case store the fetched document itself.  `rec` is the recursive entry
`subDereffer._resolve()` applied to the fetched document and the
sub-dereferencer options. -/
def afterFetch (rec : JSch → DOptions → RState → RState × Except DerefError JSch)
    (ref : String) (opts : DOptions) (fetched : JSch) (st₁ : RState) :
    RState × Except DerefError Unit :=
  if opts.recursive = some true ∧ isBoolD fetched = false ∧ ref ≠ "#" then
    let subOpts := ctorOptions fetched opts
    match collectRefsE fetched with
    | .error e => (st₁, .error e)
    | .ok subRefs =>
        if subRefs ≠ [] then
          match rec fetched subOpts st₁ with
          | (st₂, .error e) => (st₂, .error e)
          | (st₂, .ok subFetched) =>
              (cacheSet st₂ ref (copyOrNot (fetchedAfterSub fetched subFetched) subFetched),
               .ok ())
        else (cacheSet st₁ ref fetched, .ok ())
  else (cacheSet st₁ ref fetched, .ok ())

/-- One iteration of the `for (const ref of unfetchedRefs)` loop of
`_resolve` (lines 135-167), for ref string `ref`.  Steps: re-check the
cache (line 137); for `"#"` take the configured root schema without
any Loader call (lines 139-143, failing when `rootSchema` is
undefined); otherwise invoke the Loader (line 145, recorded in the
trace); then proceed with `afterFetch`.  The recursive entry `rec` is
a parameter so that its absence on the `"#"` path is visible in the
definition itself. -/
def processRef (L : Loader) (rec : JSch → DOptions → RState → RState × Except DerefError JSch)
    (ref : String) (opts : DOptions) (st : RState) : RState × Except DerefError Unit :=
  match cacheGet st ref with
  | some cached => afterFetch rec ref opts cached st
  | none =>
      if ref = "#" then
        match opts.rootSchema with
        | none => (st, .error DerefError.missingRootSchema)
        | some rs => afterFetch rec ref opts rs st
      else
        let st₁ := recordCall st ref
        match L ref opts.rootSchema with
        | .error e => (st₁, .error e)
        | .ok fetched => afterFetch rec ref opts fetched st₁

/-- The whole `for` loop of `_resolve`: process the unfetched refs in
order, stopping at the first error.  Cache entries written before a
failure are kept (no rollback). -/
def processRefs (L : Loader) (rec : JSch → DOptions → RState → RState × Except DerefError JSch) :
    List String → DOptions → RState → RState × Except DerefError Unit
  | [], _, st => (st, .ok ())
  | ref :: rest, opts, st =>
      match processRef L rec ref opts st with
      | (st₁, .ok _) => processRefs L rec rest opts st₁
      | (st₁, .error e) => (st₁, .error e)

/-- Translation of `Dereferencer._resolve` (lines 124-187), with
explicit recursion fuel.  A Boolean document is returned unchanged; a
document whose collected ref list is empty is returned unchanged;
otherwise the refs absent from the cache are processed in order, and
finally the document is substituted: a root with a defined `$ref` is
replaced wholesale by `copyOrNot(schema, refCache[schema.$ref])`
(lines 170-171), any other document is rewritten by the mutable
traversal (lines 173-182).  The ref list is the one computed by
`collectRefs`; it is recomputed here (the function is pure, so this
equals the list stored by the constructor), and a sub-dereferencer
constructed during the loop can surface `NonStringRefError` from its
own collection. -/
def resolveGo (L : Loader) : Nat → JSch → DOptions → RState → RState × Except DerefError JSch
  | 0, _, _, st => (st, .error DerefError.outOfFuel)
  | fuel + 1, schema, opts, st =>
      if isBoolD schema = true then (st, .ok schema)
      else
        match collectRefsE schema with
        | .error e => (st, .error e)
        | .ok refs =>
            if refs = [] then (st, .ok schema)
            else
              let unfetched := refs.filter (fun r => (cacheGet st r).isNone)
              match processRefs L (resolveGo L fuel) unfetched opts st with
              | (st₁, .error e) => (st₁, .error e)
              | (st₁, .ok _) =>
                  match schema with
                  | .obj kvs =>
                      if hasDefinedRef kvs = true then
                        (st₁, .ok (copyOrNot (.obj kvs)
                          ((cacheGet st₁
                            (jsKeyStr ((lookupKV kvs "$ref").getD JSch.undef))).getD
                            JSch.undef)))
                      else (st₁, .ok (substTree st₁ (.obj kvs)))
                  | x => (st₁, .ok (substTree st₁ x))

/-- Property removal `delete (this.schema as any).definitions` /
`.components`: removes the top-level key from an object document;
deleting a property of a Boolean primitive is a no-op. -/
def jsDeleteKey (k : String) : JSch → JSch
  | .obj kvs => .obj (removeKey k kvs)
  | x => x

/-- Translation of `Dereferencer.resolve` (lines 117-122): run
`_resolve`, then delete the top-level `definitions` and `components`
keys from the resulting document and return it. -/
def resolveFull (L : Loader) (fuel : Nat) (schema : JSch) (opts : DOptions) (st : RState) :
    RState × Except DerefError JSch :=
  match resolveGo L fuel schema opts st with
  | (st₁, .ok out) => (st₁, .ok (jsDeleteKey "components" (jsDeleteKey "definitions" out)))
  | (st₁, .error e) => (st₁, .error e)

/-- One full session from the caller's viewpoint: construct a
`Dereferencer` over `schema` with `options` (normalizing the options
and collecting refs, which can fail with `NonStringRefError` before
any Loader activity), then run `resolve()`.  The initial state carries
the caller's pre-seeded cache (the `refCache` option) or the fresh
empty cache. -/
def dereference (L : Loader) (fuel : Nat) (schema : JSch) (options : DOptions) (st : RState) :
    RState × Except DerefError JSch :=
  let opts := ctorOptions schema options
  match collectRefsE schema with
  | .error e => (st, .error e)
  | .ok _ => resolveFull L fuel schema opts st

/-- Parse a decimal array index from a pointer segment. -/
def parseIdxAux (acc : Nat) : List Char → Option Nat
  | [] => some acc
  | c :: rest =>
      if c.isDigit then parseIdxAux (acc * 10 + (c.toNat - 48)) rest else none

/-- Parse a non-empty decimal pointer segment as an array index. -/
def parseIdx (seg : String) : Option Nat :=
  match seg.data with
  | [] => none
  | cs => parseIdxAux 0 cs

/-- Modelled from the spec: the external `PointerEvaluator.eval(path,
rootDocument)` capability (§6) behind the Loader for local-pointer
refs; the evaluator itself lives in the external
`@json-schema-tools/reference-resolver` package, not in this
repository.  It walks the RFC6901-style segments against the given
document: a key into an object, a numeric index into an array. -/
def ptrWalk : List String → JSch → Except DerefError JSch
  | [], s => .ok s
  | seg :: rest, .obj kvs =>
      match lookupKV kvs seg with
      | some v => ptrWalk rest v
      | none => .error (.loaderFail ("unresolvable pointer segment " ++ seg))
  | seg :: rest, .arr xs =>
      match parseIdx seg with
      | some i =>
          match xs.get? i with
          | some v => ptrWalk rest v
          | none => .error (.loaderFail ("index out of range " ++ seg))
      | none => .error (.loaderFail ("non-numeric index " ++ seg))
  | seg :: _, _ => .error (.loaderFail ("cannot descend into scalar at " ++ seg))

/-- Split a character list into the strings between slashes. -/
def splitSlash (cur : List Char) : List Char → List String
  | [] => [String.mk cur.reverse]
  | c :: rest =>
      if c = '/' then String.mk cur.reverse :: splitSlash [] rest
      else splitSlash (c :: cur) rest

/-- Modelled from the spec: a Loader handling only local-pointer refs
(`#/a/b/...`) by pointer evaluation against the configured root
schema, used to instantiate witnesses.  Any other ref shape fails, as
a loader without filesystem and network transports would. -/
def localLoader : Loader := fun ref root =>
  match root with
  | none => .error (.loaderFail "rootSchema undefined")
  | some rs =>
      match ref.data with
      | c :: rest =>
          if c = '#' then
            ptrWalk ((splitSlash [] rest).filter (fun seg => seg ≠ "")) rs
          else .error (.loaderFail ("no transport for " ++ ref))
      | [] => .error (.loaderFail "empty ref")

/-- A position in a document: a sequence of object keys and array
indices. -/
inductive JPath where
  | here
  | atKey (k : String) (p : JPath)
  | atIdx (i : Nat) (p : JPath)

/-- The node of a document at a position, when the position exists. -/
def getAt : JSch → JPath → Option JSch
  | s, .here => some s
  | .obj kvs, .atKey k p =>
      match lookupKV kvs k with
      | some v => getAt v p
      | none => none
  | .arr xs, .atIdx i p =>
      match xs.get? i with
      | some v => getAt v p
      | none => none
  | _, _ => none

/-- A position is clean when every node strictly above it is an object
without a defined `$ref` or an array, so that the substitution pass
rewrites the ancestors in place rather than replacing them. -/
def cleanPath : JSch → JPath → Bool
  | _, .here => true
  | .obj kvs, .atKey k p =>
      !hasDefinedRef kvs &&
        (match lookupKV kvs k with
         | some v => cleanPath v p
         | none => false)
  | .arr xs, .atIdx i p =>
      match xs.get? i with
      | some v => cleanPath v p
      | none => false
  | _, _ => false

/-- Documents whose top node does not take the whole-document
replacement branch of `_resolve` (line 170): objects without a defined
`$ref`, and arrays. -/
def topRefUndefined : JSch → Bool
  | .obj kvs => !hasDefinedRef kvs
  | .arr _ => true
  | _ => false

/-- An object node whose `$ref` property is truthy but not a string:
exactly the nodes on which `collectRefs` raises `NonStringRefError`
(the `s.$ref &&` guard skips falsy values; `typeof s.$ref !== "string"`
rejects the truthy non-strings). -/
def badRefNode (kvs : List (String × JSch)) : Bool :=
  match lookupKV kvs "$ref" with
  | some (.str _) => false
  | some v => truthy v
  | none => false

mutual
/-- Does the document contain a node with a truthy non-string `$ref`
anywhere in the traversal (Boolean leaves are not descended into)? -/
def hasBadNode : JSch → Bool
  | .obj kvs => badRefNode kvs || hasBadNodeKV kvs
  | .arr xs => hasBadNodeL xs
  | _ => false

/-- Bad-node search through an object's property values. -/
def hasBadNodeKV : List (String × JSch) → Bool
  | [] => false
  | (_, v) :: rest => hasBadNode v || hasBadNodeKV rest

/-- Bad-node search through an array's elements. -/
def hasBadNodeL : List JSch → Bool
  | [] => false
  | v :: rest => hasBadNode v || hasBadNodeL rest
end

/-- Is this ref present in the session cache? -/
def keyMem (st : RState) (k : String) : Bool :=
  (cacheGet st k).isSome

/-- Relation between session states across a resolution step: cache
keys are never removed, and no Loader call is recorded for `"#"` or
for any ref that was already cached when the step began. -/
def StInv (st st₁ : RState) : Prop :=
  (∀ k, keyMem st k = true → keyMem st₁ k = true) ∧
  (∀ k, k = "#" ∨ keyMem st k = true → st₁.calls.count k = st.calls.count k)

/-- Invariant of a recursive resolution entry: every run relates its
initial and final states by `StInv`. -/
def RecInv (f : JSch → DOptions → RState → RState × Except DerefError JSch) : Prop :=
  ∀ s o st, StInv st (f s o st).1

/-- Outcome of a resolution run under the spec-modelled `mutate`
option: the returned document, the content of the caller's input
document after the call, and whether the returned document is the
caller's input object itself (by reference). -/
structure MutateView where
  result : JSch
  inputAfter : JSch
  returnedByReference : Bool

/-- Modelled from the spec: the `mutate` construction option.  The
revision of `index.ts` implementing it is not among the source files
given here (only its tests are, in the `describe("mutate", ...)` block
of `index.test.ts`).  Per §6 of the specification: `mutate: bool
(default false) — false returns a freshly built structure leaving the
input untouched, true mutates and returns the input by reference`.
The returned document is in both modes the one computed by the
resolution algorithm; the modes differ in whether the caller's input
object is rewritten in place and handed back by reference, or left
untouched while a fresh structure is returned. -/
def resolveWithMutate (L : Loader) (fuel : Nat) (schema : JSch) (opts : DOptions)
    (mutate : Option Bool) (st : RState) : RState × Except DerefError MutateView :=
  let m := mutate.getD false
  match resolveFull L fuel schema opts st with
  | (st₁, .ok out) =>
      if m then (st₁, .ok ⟨out, out, true⟩)
      else (st₁, .ok ⟨out, schema, false⟩)
  | (st₁, .error e) => (st₁, .error e)

/-- The cyclic document of §8 of the specification: the root titles
itself `rewt`, `oneOf` points at `definitions.a`, which points at
`definitions.rewt`, which is the self-reference `#`. -/
def exCyclic : JSch := .obj [
  ("title", .str "rewt"),
  ("oneOf", .arr [.obj [("$ref", .str "#/definitions/a")]]),
  ("definitions", .obj [
    ("a", .obj [("$ref", .str "#/definitions/rewt")]),
    ("rewt", .obj [("$ref", .str "#")])])]

/-- A document whose single ref `A` is fetched to `exDupFetched`. -/
def exDupDoc : JSch := .obj [("a", .obj [("$ref", .str "A")])]

/-- A fetched document carrying a truthy `$id` (so the sub-dereferencer
rescopes `rootSchema` to it) and containing ref `A` again. -/
def exDupFetched : JSch := .obj [("$id", .str "x"), ("d", .obj [("$ref", .str "A")])]

/-- A Loader whose answer for ref `A` depends on the configured root
schema, as a real loader resolving a root-relative pointer would: seen
from the top root `exDupDoc` it yields `exDupFetched`; seen from the
rescoped root it yields a plain ref-free schema. -/
def exDupLoader : Loader := fun ref root =>
  if ref = "A" then
    match root with
    | some (.obj [("a", .obj [("$ref", .str "A")])]) => .ok exDupFetched
    | some _ => .ok (.obj [("type", .str "string")])
    | none => .error (.loaderFail "no root")
  else .error (.loaderFail ("unknown ref " ++ ref))

/-- A document holding the same pure reference at two positions. -/
def exShared : JSch := .obj [
  ("foo", .obj [("type", .str "string")]),
  ("bar", .obj [("$ref", .str "#/foo")]),
  ("baz", .obj [("$ref", .str "#/foo")])]

/-- A Loader that resolves ref `x1` (to a ref-free schema under a
two-entry root, and to a document containing the nested ref `x2` under
a one-entry root) and fails on every other ref. -/
def exFailLoader : Loader := fun ref root =>
  if ref = "x1" then
    match root with
    | some (.obj [_]) => .ok (.obj [("c", .obj [("$ref", .str "x2")])])
    | _ => .ok (.obj [("type", .str "string")])
  else .error (.loaderFail "transport failure")

/-- The flat two-ref document used to state error propagation: two
pure reference nodes with distinct refs. -/
def mkTwoRefDoc (r₁ r₂ : String) : JSch :=
  .obj [("a", .obj [("$ref", .str r₁)]), ("b", .obj [("$ref", .str r₂)])]

/-- A one-ref document whose fetched target contains a further ref, so
the second ref is resolved by a nested sub-resolution. -/
def mkOneRefDoc (r₁ : String) : JSch := .obj [("a", .obj [("$ref", .str r₁)])]

/-- The fetched target containing a nested ref. -/
def mkNestedFetched (r₂ : String) : JSch := .obj [("c", .obj [("$ref", .str r₂)])]

theorem lookupKV_append (l₁ l₂ : List (String × JSch)) (k : String) :
    lookupKV (l₁ ++ l₂) k =
      (match lookupKV l₁ k with
       | some v => some v
       | none => lookupKV l₂ k) := by
  induction l₁ with
  | nil => simp [lookupKV]
  | cons hd tl ih =>
      obtain ⟨k₀, v₀⟩ := hd
      by_cases h : k₀ = k <;> simp [lookupKV, h, ih]

theorem lookupKV_setKV_self (l : List (String × JSch)) (k : String) (v : JSch) :
    lookupKV (setKV l k v) k = some v := by
  induction l with
  | nil => simp [setKV, lookupKV]
  | cons hd tl ih =>
      obtain ⟨k₀, v₀⟩ := hd
      by_cases h : k₀ = k <;> simp [setKV, lookupKV, h, ih]

theorem lookupKV_setKV_ne (l : List (String × JSch)) (k k₁ : String) (v : JSch)
    (h : k₁ ≠ k) : lookupKV (setKV l k v) k₁ = lookupKV l k₁ := by
  induction l with
  | nil => simp [setKV, lookupKV, Ne.symm h]
  | cons hd tl ih =>
      obtain ⟨k₀, v₀⟩ := hd
      by_cases h₀ : k₀ = k
      · subst h₀
        simp [setKV, lookupKV, Ne.symm h]
      · simp [setKV, lookupKV, h₀, ih]

theorem lookupKV_removeKey_self (l : List (String × JSch)) (k : String) :
    lookupKV (removeKey k l) k = none := by
  induction l with
  | nil => simp [removeKey, lookupKV]
  | cons hd tl ih =>
      obtain ⟨k₀, v₀⟩ := hd
      by_cases h : k₀ = k <;> simp_all [removeKey, lookupKV, List.filter]

theorem lookupKV_removeKey_ne (l : List (String × JSch)) (k k₁ : String) (h : k₁ ≠ k) :
    lookupKV (removeKey k l) k₁ = lookupKV l k₁ := by
  induction l with
  | nil => simp [removeKey, lookupKV]
  | cons hd tl ih =>
      obtain ⟨k₀, v₀⟩ := hd
      by_cases h₀ : k₀ = k
      · subst h₀
        simp [removeKey, List.filter_cons, lookupKV, Ne.symm h, ih] at ih ⊢
        exact ih
      · simp [removeKey, List.filter_cons, lookupKV, h₀, ih] at ih ⊢
        simp [ih]

theorem lookupKV_mapOverride (kvs1 kvs2 : List (String × JSch)) (k : String) :
    lookupKV (kvs2.map (fun kv =>
        match lookupKV kvs1 kv.1 with
        | some w => (kv.1, w)
        | none => kv)) k =
      (match lookupKV kvs2 k with
       | some v => some ((lookupKV kvs1 k).getD v)
       | none => none) := by
  induction kvs2 with
  | nil => simp [lookupKV]
  | cons hd tl ih =>
      obtain ⟨k₀, v₀⟩ := hd
      by_cases h : k₀ = k
      · subst h
        cases h₁ : lookupKV kvs1 k₀ <;> simp [lookupKV, h₁]
      · cases h₁ : lookupKV kvs1 k₀ <;> simp [lookupKV, h, h₁, ih]

theorem lookupKV_filterAbsent (kvs1 kvs2 : List (String × JSch)) (k : String) :
    lookupKV (kvs1.filter (fun kv => (lookupKV kvs2 kv.1).isNone)) k =
      (match lookupKV kvs2 k with
       | some _ => none
       | none => lookupKV kvs1 k) := by
  induction kvs1 with
  | nil => cases lookupKV kvs2 k <;> simp [lookupKV]
  | cons hd tl ih =>
      obtain ⟨k₀, v₀⟩ := hd
      by_cases h : k₀ = k
      · subst h
        cases h₁ : lookupKV kvs2 k₀ <;> simp [List.filter, lookupKV, h₁, ih]
      · cases h₁ : lookupKV kvs2 k₀ <;>
          cases h₂ : lookupKV kvs2 k <;>
            simp_all [List.filter, lookupKV, h, h₁, h₂, ih]

theorem lookupKV_spreadInto (kvs1 kvs2 : List (String × JSch)) (k : String) :
    lookupKV (spreadInto (.obj kvs2) kvs1) k =
      (match lookupKV kvs1 k with
       | some w => some w
       | none => lookupKV kvs2 k) := by
  rw [spreadInto, lookupKV_append, lookupKV_mapOverride, lookupKV_filterAbsent]
  cases h₁ : lookupKV kvs1 k <;> cases h₂ : lookupKV kvs2 k <;> simp [h₁, h₂]

theorem keyMem_cacheSet_of (st : RState) (r k : String) (v : JSch)
    (h : keyMem st k = true) : keyMem (cacheSet st r v) k = true := by
  by_cases hk : k = r
  · subst hk
    simp [keyMem, cacheGet, cacheSet, lookupKV_setKV_self]
  · simpa [keyMem, cacheGet, cacheSet, lookupKV_setKV_ne _ _ _ _ hk] using h

theorem keyMem_cacheSet_self (st : RState) (r : String) (v : JSch) :
    keyMem (cacheSet st r v) r = true := by
  simp [keyMem, cacheGet, cacheSet, lookupKV_setKV_self]

theorem count_recordCall_ne (st : RState) (r k : String) (h : k ≠ r) :
    ((recordCall st r).calls).count k = st.calls.count k := by
  simp [recordCall, List.count_append, List.count_cons, List.count_nil, Ne.symm h, h]

theorem StInv_refl (st : RState) : StInv st st :=
  ⟨fun _ h => h, fun _ _ => rfl⟩

theorem StInv_trans {st₁ st₂ st₃ : RState} (h₁ : StInv st₁ st₂) (h₂ : StInv st₂ st₃) :
    StInv st₁ st₃ := by
  refine ⟨fun k hk => h₂.1 k (h₁.1 k hk), fun k hk => ?_⟩
  have hk₂ : k = "#" ∨ keyMem st₂ k = true := by
    rcases hk with e | m
    · exact Or.inl e
    · exact Or.inr (h₁.1 k m)
  exact (h₂.2 k hk₂).trans (h₁.2 k hk)

theorem StInv_cacheSet (st : RState) (r : String) (v : JSch) :
    StInv st (cacheSet st r v) :=
  ⟨fun k hk => keyMem_cacheSet_of st r k v hk, fun _ _ => rfl⟩

theorem StInv_recordCall (st : RState) (r : String) (hne : r ≠ "#")
    (hmem : keyMem st r = false) : StInv st (recordCall st r) := by
  refine ⟨fun k hk => hk, fun k hk => ?_⟩
  have hkr : k ≠ r := by
    rcases hk with e | m
    · subst e
      exact fun e₁ => hne e₁.symm
    · intro e₁
      rw [e₁] at m
      rw [m] at hmem
      cases hmem
  exact count_recordCall_ne st r k hkr

theorem afterFetch_StInv {rec} (hrec : RecInv rec) (ref : String) (opts : DOptions)
    (fetched : JSch) (st₁ : RState) : StInv st₁ (afterFetch rec ref opts fetched st₁).1 := by
  rw [afterFetch]
  split
  · split
    · exact StInv_refl st₁
    · split
      · rcases hr : rec fetched (ctorOptions fetched opts) st₁ with ⟨st₂, res⟩
        have hinv : StInv st₁ st₂ := by
          have := hrec fetched (ctorOptions fetched opts) st₁
          rwa [hr] at this
        cases res with
        | error e => simpa [hr] using hinv
        | ok subFetched =>
            simp only [hr]
            exact StInv_trans hinv (StInv_cacheSet st₂ ref _)
      · exact StInv_cacheSet st₁ ref fetched
  · exact StInv_cacheSet st₁ ref fetched

theorem processRef_StInv (L : Loader) {rec} (hrec : RecInv rec) (ref : String)
    (opts : DOptions) (st : RState) : StInv st (processRef L rec ref opts st).1 := by
  rw [processRef]
  cases hc : cacheGet st ref with
  | some cached => exact afterFetch_StInv hrec ref opts cached st
  | none =>
      by_cases h : ref = "#"
      · simp only [h, if_pos rfl]
        cases opts.rootSchema with
        | none => exact StInv_refl st
        | some rs => exact afterFetch_StInv hrec "#" opts rs st
      · simp only [if_neg h]
        have hrc : StInv st (recordCall st ref) := by
          refine StInv_recordCall st ref h ?_
          simp [keyMem, hc]
        cases hl : L ref opts.rootSchema with
        | error e => simpa using hrc
        | ok fetched =>
            exact StInv_trans hrc (afterFetch_StInv hrec ref opts fetched (recordCall st ref))

theorem processRefs_StInv (L : Loader) {rec} (hrec : RecInv rec) (refs : List String)
    (opts : DOptions) : ∀ st, StInv st (processRefs L rec refs opts st).1 := by
  induction refs with
  | nil => exact fun st => StInv_refl st
  | cons ref rest ih =>
      intro st
      rw [processRefs]
      rcases hp : processRef L rec ref opts st with ⟨st₁, res⟩
      have h₁ : StInv st st₁ := by
        have := processRef_StInv L hrec ref opts st
        rwa [hp] at this
      cases res with
      | ok u => exact StInv_trans h₁ (ih st₁)
      | error e => exact h₁

theorem resolveGo_RecInv (L : Loader) : ∀ fuel, RecInv (resolveGo L fuel) := by
  intro fuel
  induction fuel with
  | zero => exact fun s o st => StInv_refl st
  | succ n ih =>
      intro s o st
      rw [resolveGo]
      split
      · exact StInv_refl st
      · cases hc : collectRefsE s with
        | error e => simp only [hc]; exact StInv_refl st
        | ok refs =>
            simp only [hc]
            split
            · exact StInv_refl st
            · rcases hp : processRefs L (resolveGo L n) (refs.filter fun r => (cacheGet st r).isNone) o st with ⟨st₁, res⟩
              have h₁ : StInv st st₁ := by
                have := processRefs_StInv L ih (refs.filter fun r => (cacheGet st r).isNone) o st
                rwa [hp] at this
              cases res with
              | error e => simpa [hp] using h₁
              | ok u =>
                  simp only [hp]
                  split
                  · split
                    · exact h₁
                    · exact h₁
                  · exact h₁

theorem resolveFull_StInv (L : Loader) (fuel : Nat) (schema : JSch) (opts : DOptions)
    (st : RState) : StInv st (resolveFull L fuel schema opts st).1 := by
  rw [resolveFull]
  rcases hg : resolveGo L fuel schema opts st with ⟨st₁, res⟩
  have h₁ : StInv st st₁ := by
    have := resolveGo_RecInv L fuel schema opts st
    rwa [hg] at this
  cases res with
  | ok out => exact h₁
  | error e => exact h₁

theorem dereference_StInv (L : Loader) (fuel : Nat) (schema : JSch) (options : DOptions)
    (st : RState) : StInv st (dereference L fuel schema options st).1 := by
  rw [dereference]
  cases hc : collectRefsE schema with
  | error e => exact StInv_refl st
  | ok refs => exact resolveFull_StInv L fuel schema (ctorOptions schema options) st

theorem lookupKV_substKVs (st : RState) (kvs : List (String × JSch)) (k : String) :
    lookupKV (substKVs st kvs) k = (lookupKV kvs k).map (substTree st) := by
  induction kvs with
  | nil => simp [substKVs, lookupKV]
  | cons hd tl ih =>
      obtain ⟨k₀, v₀⟩ := hd
      by_cases h : k₀ = k <;> simp [substKVs, lookupKV, h, ih]

theorem get?_substL (st : RState) (xs : List JSch) :
    ∀ i, (substL st xs).get? i = (xs.get? i).map (substTree st) := by
  induction xs with
  | nil => intro i; simp [substL]
  | cons hd tl ih =>
      intro i
      cases i with
      | zero => simp [substL]
      | succ j => simpa [substL] using ih j

theorem hasDefinedRef_substKVs (st : RState) (kvs : List (String × JSch))
    (h : hasDefinedRef kvs = false) : hasDefinedRef (substKVs st kvs) = false := by
  rw [hasDefinedRef, lookupKV_substKVs]
  cases hl : lookupKV kvs "$ref" with
  | none => simp
  | some v =>
      cases v <;> simp_all [hasDefinedRef, substTree]

theorem substTree_obj_notref (st : RState) (kvs : List (String × JSch))
    (h : hasDefinedRef kvs = false) :
    substTree st (.obj kvs) = .obj (substKVs st kvs) := by
  rw [substTree]
  simp [hasDefinedRef_substKVs st kvs h]

theorem getAt_substTree (st : RState) (r : String) :
    ∀ (p : JPath) (s : JSch), cleanPath s p = true →
      getAt s p = some (.obj [("$ref", .str r)]) →
      getAt (substTree st s) p = some ((cacheGet st r).getD JSch.undef) := by
  intro p
  induction p with
  | here =>
      intro s _ hget
      simp only [getAt, Option.some.injEq] at hget
      subst hget
      simp [substTree, substKVs, hasDefinedRef, lookupKV, copyOrNot, jsKeyStr, getAt]
  | atKey k q ih =>
      intro s hclean hget
      cases s with
      | obj kvs =>
          simp only [cleanPath, Bool.and_eq_true, Bool.not_eq_true'] at hclean
          obtain ⟨hbar, hrest⟩ := hclean
          cases hl : lookupKV kvs k with
          | none => rw [hl] at hrest; cases hrest
          | some v =>
              rw [hl] at hrest
              simp only [getAt, hl] at hget
              rw [substTree_obj_notref st kvs hbar]
              simp only [getAt, lookupKV_substKVs, hl, Option.map_some]
              exact ih v hrest hget
      | bool b => cases hclean
      | str s => cases hclean
      | num n => cases hclean
      | null => cases hclean
      | undef => cases hclean
      | arr xs => cases hclean
  | atIdx i q ih =>
      intro s hclean hget
      cases s with
      | arr xs =>
          simp only [cleanPath] at hclean
          cases hl : xs.get? i with
          | none => rw [hl] at hclean; cases hclean
          | some v =>
              rw [hl] at hclean
              simp only [getAt, hl] at hget
              simp only [substTree, getAt, get?_substL, hl, Option.map_some]
              exact ih v hclean hget
      | bool b => cases hclean
      | str s => cases hclean
      | num n => cases hclean
      | null => cases hclean
      | undef => cases hclean
      | obj kvs => cases hclean

theorem getAt_jsDeleteKey_atKey (kk k : String) (q : JPath) (s : JSch) (h : k ≠ kk) :
    getAt (jsDeleteKey kk s) (.atKey k q) = getAt s (.atKey k q) := by
  cases s <;> simp only [jsDeleteKey, getAt]
  rw [lookupKV_removeKey_ne _ _ _ h]

theorem resolveGo_norefs (L : Loader) (fuel : Nat) (s : JSch) (o : DOptions) (st : RState)
    (hc : collectRefsE s = .ok []) : resolveGo L (fuel + 1) s o st = (st, .ok s) := by
  rw [resolveGo]
  by_cases hb : isBoolD s = true
  · simp [hb]
  · simp [hb, hc]

theorem resolveGo_succ_eq (L : Loader) (fuel : Nat) (s : JSch) (o : DOptions) (st st₁ : RState)
    (refs : List String) (u : Unit)
    (hb : isBoolD s = false) (hc : collectRefsE s = .ok refs) (hne : refs ≠ [])
    (ht : topRefUndefined s = true)
    (hp : processRefs L (resolveGo L fuel) (refs.filter fun r => (cacheGet st r).isNone) o st =
      (st₁, .ok u)) :
    resolveGo L (fuel + 1) s o st = (st₁, .ok (substTree st₁ s)) := by
  rw [resolveGo]
  simp only [hb, hc, Bool.false_eq_true, if_false, hne, if_neg hne, hp]
  cases s with
  | obj kvs =>
      simp only [topRefUndefined, Bool.not_eq_true'] at ht
      simp [ht]
  | arr xs => simp
  | bool b => cases hb
  | str s => cases ht
  | num n => cases ht
  | null => cases ht
  | undef => cases ht

theorem resolveGo_succ_err (L : Loader) (fuel : Nat) (s : JSch) (o : DOptions) (st st₁ : RState)
    (refs : List String) (e : DerefError)
    (hb : isBoolD s = false) (hc : collectRefsE s = .ok refs) (hne : refs ≠ [])
    (hp : processRefs L (resolveGo L fuel) (refs.filter fun r => (cacheGet st r).isNone) o st =
      (st₁, .error e)) :
    resolveGo L (fuel + 1) s o st = (st₁, .error e) := by
  rw [resolveGo]
  simp [hb, hc, hne, hp]

theorem collectStep_err_of_bad (kvs : List (String × JSch)) (acc : List String)
    (h : badRefNode kvs = true) :
    collectStep kvs acc = .error (.nonStringRef (stringify (.obj kvs))) := by
  rw [collectStep]
  rw [badRefNode] at h
  cases hl : lookupKV kvs "$ref" with
  | none => rw [hl] at h; cases h
  | some v =>
      rw [hl] at h
      cases v <;> simp_all

theorem collectStep_ok_of_not_bad (kvs : List (String × JSch)) (acc : List String)
    (h : badRefNode kvs = false) : ∃ acc₁, collectStep kvs acc = .ok acc₁ := by
  rw [collectStep]
  rw [badRefNode] at h
  cases hl : lookupKV kvs "$ref" with
  | none => exact ⟨acc, rfl⟩
  | some v =>
      rw [hl] at h
      cases v with
      | str r =>
          by_cases ht : truthy (.str r) = true
          · by_cases hm : r ∈ acc
            · exact ⟨acc, by simp [ht, hm]⟩
            · exact ⟨acc ++ [r], by simp [ht, hm]⟩
          · exact ⟨acc, by simp [ht]⟩
      | bool b =>
          refine ⟨acc, ?_⟩
          have h₂ : truthy (JSch.bool b) = false := h
          simp [h₂]
      | num n =>
          refine ⟨acc, ?_⟩
          have h₂ : truthy (JSch.num n) = false := h
          simp [h₂]
      | null =>
          refine ⟨acc, ?_⟩
          have h₂ : truthy (JSch.null) = false := h
          simp [h₂]
      | undef =>
          refine ⟨acc, ?_⟩
          have h₂ : truthy (JSch.undef) = false := h
          simp [h₂]
      | arr xs =>
          refine ⟨acc, ?_⟩
          have h₂ : truthy (JSch.arr xs) = false := h
          simp [h₂]
      | obj kvs₂ =>
          refine ⟨acc, ?_⟩
          have h₂ : truthy (JSch.obj kvs₂) = false := h
          simp [h₂]

mutual
theorem collectGo_ok_of_not_bad : ∀ (s : JSch) (acc : List String), hasBadNode s = false →
    ∃ acc₁, collectGo s acc = .ok acc₁
  | .bool _, acc, _ => ⟨acc, rfl⟩
  | .str _, acc, _ => ⟨acc, rfl⟩
  | .num _, acc, _ => ⟨acc, rfl⟩
  | .null, acc, _ => ⟨acc, rfl⟩
  | .undef, acc, _ => ⟨acc, rfl⟩
  | .arr xs, acc, h => collectL_ok_of_not_bad xs acc (by simpa [hasBadNode] using h)
  | .obj kvs, acc, h => by
      simp only [hasBadNode, Bool.or_eq_false_iff] at h
      obtain ⟨acc₁, hstep⟩ := collectStep_ok_of_not_bad kvs acc h.1
      obtain ⟨acc₂, hkv⟩ := collectKV_ok_of_not_bad kvs acc₁ h.2
      exact ⟨acc₂, by rw [collectGo, hstep]; exact hkv⟩

theorem collectKV_ok_of_not_bad : ∀ (l : List (String × JSch)) (acc : List String),
    hasBadNodeKV l = false → ∃ acc₁, collectKV l acc = .ok acc₁
  | [], acc, _ => ⟨acc, rfl⟩
  | (_, v) :: rest, acc, h => by
      simp only [hasBadNodeKV, Bool.or_eq_false_iff] at h
      obtain ⟨acc₁, hv⟩ := collectGo_ok_of_not_bad v acc h.1
      obtain ⟨acc₂, hrest⟩ := collectKV_ok_of_not_bad rest acc₁ h.2
      exact ⟨acc₂, by rw [collectKV, hv]; exact hrest⟩

theorem collectL_ok_of_not_bad : ∀ (l : List JSch) (acc : List String),
    hasBadNodeL l = false → ∃ acc₁, collectL l acc = .ok acc₁
  | [], acc, _ => ⟨acc, rfl⟩
  | v :: rest, acc, h => by
      simp only [hasBadNodeL, Bool.or_eq_false_iff] at h
      obtain ⟨acc₁, hv⟩ := collectGo_ok_of_not_bad v acc h.1
      obtain ⟨acc₂, hrest⟩ := collectL_ok_of_not_bad rest acc₁ h.2
      exact ⟨acc₂, by rw [collectL, hv]; exact hrest⟩
end

mutual
theorem collectGo_err_of_bad : ∀ (s : JSch) (acc : List String), hasBadNode s = true →
    ∃ kvs, badRefNode kvs = true ∧
      collectGo s acc = .error (.nonStringRef (stringify (.obj kvs)))
  | .bool _, _, h => by simp [hasBadNode] at h
  | .str _, _, h => by simp [hasBadNode] at h
  | .num _, _, h => by simp [hasBadNode] at h
  | .null, _, h => by simp [hasBadNode] at h
  | .undef, _, h => by simp [hasBadNode] at h
  | .arr xs, acc, h => collectL_err_of_bad xs acc (by simpa [hasBadNode] using h)
  | .obj kvs, acc, h => by
      by_cases hb : badRefNode kvs = true
      · exact ⟨kvs, hb, by rw [collectGo, collectStep_err_of_bad kvs acc hb]⟩
      · have hb₁ : badRefNode kvs = false := by simpa using hb
        have hkv : hasBadNodeKV kvs = true := by
          simp only [hasBadNode, hb₁, Bool.false_or] at h
          exact h
        obtain ⟨acc₁, hstep⟩ := collectStep_ok_of_not_bad kvs acc hb₁
        obtain ⟨kvs₂, hbad₂, herr⟩ := collectKV_err_of_bad kvs acc₁ hkv
        exact ⟨kvs₂, hbad₂, by rw [collectGo, hstep]; exact herr⟩

theorem collectKV_err_of_bad : ∀ (l : List (String × JSch)) (acc : List String),
    hasBadNodeKV l = true →
    ∃ kvs, badRefNode kvs = true ∧
      collectKV l acc = .error (.nonStringRef (stringify (.obj kvs)))
  | [], _, h => by simp [hasBadNodeKV] at h
  | (_, v) :: rest, acc, h => by
      by_cases hv : hasBadNode v = true
      · obtain ⟨kvs₂, hbad₂, herr⟩ := collectGo_err_of_bad v acc hv
        exact ⟨kvs₂, hbad₂, by rw [collectKV, herr]⟩
      · have hv₁ : hasBadNode v = false := by simpa using hv
        have hrest : hasBadNodeKV rest = true := by
          simp only [hasBadNodeKV, hv₁, Bool.false_or] at h
          exact h
        obtain ⟨acc₁, hok⟩ := collectGo_ok_of_not_bad v acc hv₁
        obtain ⟨kvs₂, hbad₂, herr⟩ := collectKV_err_of_bad rest acc₁ hrest
        exact ⟨kvs₂, hbad₂, by rw [collectKV, hok]; exact herr⟩

theorem collectL_err_of_bad : ∀ (l : List JSch) (acc : List String),
    hasBadNodeL l = true →
    ∃ kvs, badRefNode kvs = true ∧
      collectL l acc = .error (.nonStringRef (stringify (.obj kvs)))
  | [], _, h => by simp [hasBadNodeL] at h
  | v :: rest, acc, h => by
      by_cases hv : hasBadNode v = true
      · obtain ⟨kvs₂, hbad₂, herr⟩ := collectGo_err_of_bad v acc hv
        exact ⟨kvs₂, hbad₂, by rw [collectL, herr]⟩
      · have hv₁ : hasBadNode v = false := by simpa using hv
        have hrest : hasBadNodeL rest = true := by
          simp only [hasBadNodeL, hv₁, Bool.false_or] at h
          exact h
        obtain ⟨acc₁, hok⟩ := collectGo_ok_of_not_bad v acc hv₁
        obtain ⟨kvs₂, hbad₂, herr⟩ := collectL_err_of_bad rest acc₁ hrest
        exact ⟨kvs₂, hbad₂, by rw [collectL, hok]; exact herr⟩
end

theorem removeKey_of_absent (k : String) (kvs : List (String × JSch))
    (h : lookupKV kvs k = none) : removeKey k kvs = kvs := by
  induction kvs with
  | nil => rfl
  | cons hd tl ih =>
      obtain ⟨k₀, v₀⟩ := hd
      by_cases h₀ : k₀ = k
      · simp [lookupKV, h₀] at h
      · simp only [lookupKV, if_neg h₀] at h
        have htl := ih h
        unfold removeKey at htl ⊢
        rw [List.filter_cons, if_pos (by simp [h₀]), htl]

theorem jsDeleteKey_of_absent (k : String) (kvs : List (String × JSch))
    (h : lookupKV kvs k = none) : jsDeleteKey k (.obj kvs) = .obj kvs := by
  rw [jsDeleteKey, removeKey_of_absent k kvs h]

theorem ctorOptions_recursive (s : JSch) (o : DOptions) :
    (ctorOptions s o).recursive =
      (match o.recursive with | none => some true | some b => some b) := by
  rw [ctorOptions]
  cases hr : o.recursive <;> cases hrs : o.rootSchema <;> split <;> simp [hr, hrs]

theorem ctorOptions_rootSchema (s : JSch) (o : DOptions) :
    (ctorOptions s o).rootSchema =
      (if isBoolD s = false ∧ hasTruthyId s = true then some s
       else match o.rootSchema with | none => some s | some rs => some rs) := by
  rw [ctorOptions]
  cases hr : o.recursive <;> cases hrs : o.rootSchema <;> split <;> simp [hr, hrs]

/-- C1 (corrected).  The merge operation `copyOrNot`: a reference node
with no keys besides `$ref` yields the resolved target itself
(identity preserved, for every target including Booleans); a reference
node with sibling keys and a defined `$ref`, merged into a non-Boolean
object target, yields the fresh object built by spreading the target
and then the node and deleting `$ref` — `$ref` is absent from the
result, the node's value wins on every key collision, and keys only
present on the target keep the target's value.  (The claim as frozen
also asserted the merged-object shape for Boolean targets; the code
returns the Boolean as-is there, see the counterexample.) -/
theorem C1_merge (v s2 : JSch) (kvs s2kvs : List (String × JSch))
    (href : hasDefinedRef kvs = true) (hsib : 1 < kvs.length) :
    copyOrNot (.obj [("$ref", v)]) s2 = s2 ∧
    (copyOrNot (.obj kvs) (.obj s2kvs) =
        .obj (removeKey "$ref" (spreadInto (.obj s2kvs) kvs)) ∧
      lookupKV (removeKey "$ref" (spreadInto (.obj s2kvs) kvs)) "$ref" = none ∧
      (∀ k w, k ≠ "$ref" → lookupKV kvs k = some w →
        lookupKV (removeKey "$ref" (spreadInto (.obj s2kvs) kvs)) k = some w) ∧
      (∀ k, k ≠ "$ref" → lookupKV kvs k = none →
        lookupKV (removeKey "$ref" (spreadInto (.obj s2kvs) kvs)) k = lookupKV s2kvs k)) := by
  refine ⟨by simp [copyOrNot], ?_, lookupKV_removeKey_self _ _, ?_, ?_⟩
  · simp [copyOrNot, href, hsib, isBoolD]
  · intro k w hk hw
    rw [lookupKV_removeKey_ne _ _ _ hk, lookupKV_spreadInto, hw]
  · intro k hk hw
    rw [lookupKV_removeKey_ne _ _ _ hk, lookupKV_spreadInto, hw]

/-- C1 witness: concrete instances of both branches of the merge rule
(the sibling-merge instance is the `title` example of §8 of the
specification). -/
theorem C1_merge_witness :
    copyOrNot (.obj [("$ref", .str "#/d")]) (.num 5) = .num 5 ∧
    copyOrNot (.obj [("$ref", .str "#/d"), ("title", .str "bar")])
        (.obj [("title", .str "baz"), ("type", .str "string")]) =
      .obj [("title", .str "bar"), ("type", .str "string")] := by
  have h := C1_merge (.str "#/d") (.num 5)
      [("$ref", .str "#/d"), ("title", .str "bar")]
      [("title", .str "baz"), ("type", .str "string")] (by rfl) (by decide)
  refine ⟨h.1, ?_⟩
  rw [h.2.1]
  rfl

/-- C1 counterexample: a reference node with a sibling key whose
resolved target is the Boolean `true`.  The claim as stated promises a
new object with the sibling overlaid; `copyOrNot` returns the Boolean
itself, which is not an object at all. -/
theorem C1_boolean_target_counterexample :
    copyOrNot (.obj [("$ref", .str "#/definitions/b"), ("title", .str "bar")]) (.bool true) =
      .bool true ∧
    isBoolD (copyOrNot (.obj [("$ref", .str "#/definitions/b"), ("title", .str "bar")])
      (.bool true)) = true ∧
    copyOrNot (.obj [("$ref", .str "#/definitions/b"), ("title", .str "bar")]) (.bool true) ≠
      .obj [("title", .str "bar")] :=
  ⟨rfl, rfl, fun h => JSch.noConfusion h⟩

/-- C9 (confirmed).  A Boolean resolved target comes out of the merge
operation as-is, with any sibling keys of the reference node
discarded; a Boolean whole-input document is returned unchanged by
`_resolve` and by `resolve()`. -/
theorem C9_boolean_resolution (refNode : JSch) (b : Bool) (L : Loader) (fuel : Nat)
    (opts : DOptions) (st : RState) :
    copyOrNot refNode (.bool b) = .bool b ∧
    resolveGo L (fuel + 1) (.bool b) opts st = (st, .ok (.bool b)) ∧
    dereference L (fuel + 1) (.bool b) opts st = (st, .ok (.bool b)) := by
  refine ⟨?_, rfl, rfl⟩
  cases refNode <;> simp [copyOrNot, isBoolD]

/-- C2 (corrected).  When ref collection finds no refs, `_resolve`
returns the document unchanged; `resolve()` returns it with the
top-level `definitions` and `components` keys deleted, which is the
unchanged document exactly when neither key is present.  (The claim as
frozen asserted structural equality for every ref-free input; the
pruning step falsifies that for inputs carrying a top-level
`definitions` or `components` key, see the counterexample.) -/
theorem C2_reffree_resolution (L : Loader) (fuel : Nat) (schema : JSch) (opts : DOptions)
    (st : RState) (hc : collectRefsE schema = .ok []) :
    resolveGo L (fuel + 1) schema opts st = (st, .ok schema) ∧
    resolveFull L (fuel + 1) schema opts st =
      (st, .ok (jsDeleteKey "components" (jsDeleteKey "definitions" schema))) ∧
    (∀ kvs, schema = .obj kvs → lookupKV kvs "definitions" = none →
      lookupKV kvs "components" = none →
      resolveFull L (fuel + 1) schema opts st = (st, .ok schema)) := by
  refine ⟨resolveGo_norefs L fuel schema opts st hc, ?_, ?_⟩
  · rw [resolveFull, resolveGo_norefs L fuel schema opts st hc]
  · intro kvs hs hd hcomp
    subst hs
    rw [resolveFull, resolveGo_norefs L fuel _ opts st hc]
    show (st, Except.ok (jsDeleteKey "components" (jsDeleteKey "definitions" (JSch.obj kvs)))) = _
    rw [jsDeleteKey_of_absent _ _ hd, jsDeleteKey_of_absent _ _ hcomp]

/-- C2 witness: a ref-free document with neither scaffolding key
resolves to itself. -/
theorem C2_reffree_resolution_witness :
    resolveFull localLoader 1 (.obj [("type", .str "string")]) emptyOptions initState =
      (initState, .ok (.obj [("type", .str "string")])) :=
  (C2_reffree_resolution localLoader 0 (.obj [("type", .str "string")]) emptyOptions initState
    (by rfl)).2.2 _ rfl rfl rfl

/-- C2 counterexample: a ref-free document consisting of a single
top-level `definitions` key.  `resolve()` deletes that key and returns
the empty object, which is not structurally equal to the input. -/
theorem C2_defs_pruned_counterexample :
    dereference localLoader 5
        (.obj [("definitions", .obj [("a", .obj [("type", .str "string")])])])
        emptyOptions initState =
      (initState, .ok (.obj [])) ∧
    JSch.obj [] ≠ .obj [("definitions", .obj [("a", .obj [("type", .str "string")])])] := by
  refine ⟨rfl, ?_⟩
  simp

/-- C7 (corrected).  Whenever the input document contains a node whose
`$ref` key holds a truthy non-string value, construction (ref
collection) fails with `NonStringRefError` carrying the serialized
rendering of an offending node, before any Loader call occurs: the
session state, including the loader-call trace and the cache, is
returned untouched.  (The claim as frozen said every non-string `$ref`
value fails; the `s.$ref &&` truthiness guard silently skips falsy
non-strings such as `0`, `false` or `null`, see the counterexample.) -/
theorem C7_truthy_nonstring_ref (L : Loader) (fuel : Nat) (schema : JSch)
    (options : DOptions) (st : RState) (h : hasBadNode schema = true) :
    ∃ kvs, badRefNode kvs = true ∧
      dereference L fuel schema options st =
        (st, .error (.nonStringRef (stringify (.obj kvs)))) := by
  obtain ⟨kvs, hbad, herr⟩ := collectGo_err_of_bad schema [] h
  refine ⟨kvs, hbad, ?_⟩
  rw [dereference]
  rw [show collectRefsE schema = .error (.nonStringRef (stringify (.obj kvs))) from herr]

/-- C7 witness: the document of the unit test, a node with the numeric
ref `123`. -/
theorem C7_truthy_nonstring_ref_witness :
    ∃ kvs, badRefNode kvs = true ∧
      dereference localLoader 3 (.obj [("$ref", .num 123)]) emptyOptions initState =
        (initState, .error (.nonStringRef (stringify (.obj kvs)))) :=
  C7_truthy_nonstring_ref localLoader 3 (.obj [("$ref", .num 123)]) emptyOptions initState
    (by rfl)

/-- C7 counterexample: a node whose `$ref` is the falsy non-string
`0`.  Collection succeeds with no refs and the whole session returns
the document unchanged — no `NonStringRefError` is raised. -/
theorem C7_falsy_ref_counterexample :
    collectRefsE (.obj [("$ref", .num 0)]) = .ok [] ∧
    dereference localLoader 5 (.obj [("$ref", .num 0)]) emptyOptions initState =
      (initState, .ok (.obj [("$ref", .num 0)])) :=
  ⟨rfl, rfl⟩

/-- C10 (corrected).  The constructor writes into the caller-supplied
options object (modelled by returning that object updated):
`recursive` is set to `true` exactly when it was undefined, a
caller-provided `recursive` is kept; `rootSchema` is set to the input
schema when undefined, and a caller-provided `rootSchema` is
overridden by the input schema exactly when the non-Boolean input
schema has a truthy `$id`; a Dereferencer later constructed with the
same options object sees the `recursive` value the first construction
left there.  (The claim as frozen said any `$id` key triggers the
override; a falsy `$id` value such as the empty string does not, see
the counterexample.) -/
theorem C10_ctor_mutates_options (schema : JSch) (options : DOptions) :
    (options.recursive = none → (ctorOptions schema options).recursive = some true) ∧
    (∀ b, options.recursive = some b → (ctorOptions schema options).recursive = some b) ∧
    (options.rootSchema = none → (ctorOptions schema options).rootSchema = some schema) ∧
    (∀ rs, options.rootSchema = some rs → isBoolD schema = false →
      hasTruthyId schema = true → (ctorOptions schema options).rootSchema = some schema) ∧
    (∀ rs, options.rootSchema = some rs → hasTruthyId schema = false →
      (ctorOptions schema options).rootSchema = some rs) ∧
    (∀ σ : JSch, (ctorOptions σ (ctorOptions schema options)).recursive =
      (ctorOptions schema options).recursive) := by
  refine ⟨?_, ?_, ?_, ?_, ?_, ?_⟩
  · intro h
    rw [ctorOptions_recursive, h]
  · intro b h
    rw [ctorOptions_recursive, h]
  · intro h
    rw [ctorOptions_rootSchema, h]
    split <;> rfl
  · intro rs h hb hid
    rw [ctorOptions_rootSchema]
    simp [hb, hid]
  · intro rs h hid
    rw [ctorOptions_rootSchema, h]
    simp [hid]
  · intro σ
    rw [ctorOptions_recursive σ, ctorOptions_recursive schema]
    cases options.recursive <;> rfl

/-- C10 witness: a fresh options object gains `recursive := true` and
`rootSchema :=` the input schema, and a truthy `$id` overrides a
caller-provided root. -/
theorem C10_ctor_mutates_options_witness :
    (ctorOptions (.obj [("type", .str "string")]) emptyOptions).recursive = some true ∧
    (ctorOptions (.obj [("type", .str "string")]) emptyOptions).rootSchema =
      some (.obj [("type", .str "string")]) ∧
    (ctorOptions (.obj [("$id", .str "x")])
        { recursive := some true, rootSchema := some (.bool true) }).rootSchema =
      some (.obj [("$id", .str "x")]) := by
  refine ⟨?_, ?_, ?_⟩
  · exact (C10_ctor_mutates_options (.obj [("type", .str "string")]) emptyOptions).1 rfl
  · exact (C10_ctor_mutates_options (.obj [("type", .str "string")]) emptyOptions).2.2.1 rfl
  · exact (C10_ctor_mutates_options (.obj [("$id", .str "x")])
      { recursive := some true, rootSchema := some (.bool true) }).2.2.2.1
      (.bool true) rfl rfl rfl

/-- C10 counterexample: the input schema carries the `$id` key with
the falsy value `""` and the caller provided a `rootSchema`; the
constructor leaves the caller's `rootSchema` in place instead of
overriding it with the input schema. -/
theorem C10_falsy_id_counterexample :
    (ctorOptions (.obj [("$id", .str "")])
        { recursive := some true, rootSchema := some (.bool true) }).rootSchema =
      some (.bool true) ∧
    some (JSch.bool true) ≠ some (JSch.obj [("$id", .str "")]) := by
  refine ⟨rfl, ?_⟩
  simp

/-- C3 (confirmed).  The ref `"#"` is the designed terminal case: its
processing step is independent of the recursive resolution entry (no
sub-dereferencer is spawned for it), and when `"#"` is not already
cached it stores the configured root schema in the cache without
touching the loader-call trace; across a whole resolution run no
Loader call is ever recorded for `"#"`; and the self-referential
cyclic document of §8 of the specification resolves to a result (not
an out-of-fuel divergence), its root title preserved and its
`definitions` scaffolding pruned. -/
theorem C3_hash_terminal (L : Loader)
    (rec₁ rec₂ : JSch → DOptions → RState → RState × Except DerefError JSch)
    (opts : DOptions) (st : RState) (rs : JSch)
    (hmiss : cacheGet st "#" = none) (hroot : opts.rootSchema = some rs) :
    processRef L rec₁ "#" opts st = processRef L rec₂ "#" opts st ∧
    processRef L rec₁ "#" opts st = (cacheSet st "#" rs, .ok ()) ∧
    (∀ fuel schema o s, ((resolveGo L fuel schema o s).1).calls.count "#" =
      s.calls.count "#") ∧
    (dereference localLoader 10 exCyclic emptyOptions initState).2 =
      .ok (.obj [("title", .str "rewt"), ("oneOf", .arr [exCyclic])]) := by
  have h₁ : ∀ rec : JSch → DOptions → RState → RState × Except DerefError JSch,
      processRef L rec "#" opts st = (cacheSet st "#" rs, .ok ()) := by
    intro rec
    simp [processRef, hmiss, hroot, afterFetch]
  refine ⟨(h₁ rec₁).trans (h₁ rec₂).symm, h₁ rec₁, ?_, rfl⟩
  intro fuel schema o s
  exact (resolveGo_RecInv L fuel schema o s).2 "#" (Or.inl rfl)

/-- C3 witness: the terminal-step equations at concrete inputs and the
concrete cyclic resolution. -/
theorem C3_hash_terminal_witness :
    processRef localLoader (fun _ _ s => (s, .error DerefError.outOfFuel)) "#"
        { recursive := some true, rootSchema := some (.bool true) } initState =
      processRef localLoader (fun sc _ s => (s, .ok sc)) "#"
        { recursive := some true, rootSchema := some (.bool true) } initState ∧
    processRef localLoader (fun _ _ s => (s, .error DerefError.outOfFuel)) "#"
        { recursive := some true, rootSchema := some (.bool true) } initState =
      (cacheSet initState "#" (.bool true), .ok ()) ∧
    ((resolveGo localLoader 10 exCyclic
        { recursive := some true, rootSchema := some exCyclic } initState).1).calls.count
      "#" = 0 ∧
    (dereference localLoader 10 exCyclic emptyOptions initState).2 =
      .ok (.obj [("title", .str "rewt"), ("oneOf", .arr [exCyclic])]) := by
  have h := C3_hash_terminal localLoader (fun _ _ s => (s, .error DerefError.outOfFuel))
      (fun sc _ s => (s, .ok sc)) { recursive := some true, rootSchema := some (.bool true) }
      initState (.bool true) rfl rfl
  refine ⟨h.1, h.2.1, ?_, h.2.2.2⟩
  have h₃ := h.2.2.1 10 exCyclic { recursive := some true, rootSchema := some exCyclic }
    initState
  simpa using h₃

/-- C4 (corrected).  Within one session, cache keys are never removed
(every cached ref stays cached through any resolution run), and the
Loader is never invoked for a ref already present in the shared cache:
its loader-call count is unchanged by any `_resolve` run and by any
further `resolve()` call over the same cache, which therefore skips
previously resolved refs.  (The claim as frozen also asserted at most
one Loader invocation per distinct ref string per session; a nested
sub-resolution can re-fetch a ref whose own resolution is still in
flight — the counterexample shows a terminating session whose trace
carries two Loader calls for the same ref, with its first cached value
overwritten by the enclosing step.) -/
theorem C4_cache_once (L : Loader) (fuel : Nat) (schema : JSch) (o : DOptions)
    (options : DOptions) (st : RState) (k : String) (hk : keyMem st k = true) :
    keyMem ((resolveGo L fuel schema o st).1) k = true ∧
    ((resolveGo L fuel schema o st).1).calls.count k = st.calls.count k ∧
    ((dereference L fuel schema options st).1).calls.count k = st.calls.count k := by
  refine ⟨(resolveGo_RecInv L fuel schema o st).1 k hk,
    (resolveGo_RecInv L fuel schema o st).2 k (Or.inr hk), ?_⟩
  exact (dereference_StInv L fuel schema options st).2 k (Or.inr hk)

/-- C4 witness: a pre-seeded cache entry for ref `x1` survives a
resolution over a document that references it, and no Loader call is
made for it. -/
theorem C4_cache_once_witness :
    keyMem ((resolveGo localLoader 4 (mkOneRefDoc "x1")
        { recursive := some true, rootSchema := some (.bool true) }
        { cache := [("x1", .obj [("type", .str "string")])], calls := [] }).1) "x1" = true ∧
    ((resolveGo localLoader 4 (mkOneRefDoc "x1")
        { recursive := some true, rootSchema := some (.bool true) }
        { cache := [("x1", .obj [("type", .str "string")])], calls := [] }).1).calls.count
      "x1" = 0 ∧
    ((dereference localLoader 4 (mkOneRefDoc "x1") emptyOptions
        { cache := [("x1", .obj [("type", .str "string")])], calls := [] }).1).calls.count
      "x1" = 0 := by
  have h := C4_cache_once localLoader 4 (mkOneRefDoc "x1")
      { recursive := some true, rootSchema := some (.bool true) } emptyOptions
      { cache := [("x1", .obj [("type", .str "string")])], calls := [] } "x1" rfl
  exact ⟨h.1, h.2.1, h.2.2⟩

/-- C4 counterexample: a terminating session with two Loader calls for
the one ref `A`.  The fetched document for `A` carries a truthy `$id`,
so the sub-dereferencer rescopes its root and, while the first
resolution of `A` is still in flight (its cache write pending), the
nested resolution fetches `A` a second time; the session completes
with the trace `["A", "A"]`. -/
theorem C4_duplicate_fetch_counterexample :
    (dereference exDupLoader 10 exDupDoc emptyOptions initState).1.calls = ["A", "A"] ∧
    (dereference exDupLoader 10 exDupDoc emptyOptions initState).2 =
      .ok (.obj [("a", .obj [("$id", .str "x"), ("d", .obj [("type", .str "string")])])]) :=
  ⟨rfl, rfl⟩

/-- C5 (confirmed).  When a resolution run succeeds on a document
whose root is not a reference node, any two clean positions holding
pure reference nodes (no sibling keys) with the same ref string `r`
receive in the output the very same resolved value: both positions
hold exactly the content of the single cache slot for `r` — the
arena/handle rendering of object identity, per the design notes of the
specification (`copyOrNot` returns the cache entry itself for a
pure-ref node, so in the JavaScript original both positions alias one
object). -/
theorem C5_shared_identity (L : Loader) (fuel : Nat) (schema : JSch) (opts : DOptions)
    (st st₁ : RState) (out : JSch) (refs : List String) (r k₁ k₂ : String) (q₁ q₂ : JPath)
    (hb : isBoolD schema = false)
    (ht : topRefUndefined schema = true)
    (hc : collectRefsE schema = .ok refs) (hne : refs ≠ [])
    (hrun : resolveFull L (fuel + 1) schema opts st = (st₁, .ok out))
    (hk₁d : k₁ ≠ "definitions") (hk₁c : k₁ ≠ "components")
    (hk₂d : k₂ ≠ "definitions") (hk₂c : k₂ ≠ "components")
    (hp₁ : cleanPath schema (.atKey k₁ q₁) = true)
    (hg₁ : getAt schema (.atKey k₁ q₁) = some (.obj [("$ref", .str r)]))
    (hp₂ : cleanPath schema (.atKey k₂ q₂) = true)
    (hg₂ : getAt schema (.atKey k₂ q₂) = some (.obj [("$ref", .str r)])) :
    getAt out (.atKey k₁ q₁) = getAt out (.atKey k₂ q₂) ∧
    getAt out (.atKey k₁ q₁) = some ((cacheGet st₁ r).getD JSch.undef) := by
  rcases hpr : processRefs L (resolveGo L fuel)
      (refs.filter fun rr => (cacheGet st rr).isNone) opts st with ⟨st₂, res⟩
  cases res with
  | error e =>
      have hgo := resolveGo_succ_err L fuel schema opts st st₂ refs e hb hc hne hpr
      rw [resolveFull, hgo] at hrun
      simp at hrun
  | ok u =>
      have hgo := resolveGo_succ_eq L fuel schema opts st st₂ refs u hb hc hne ht hpr
      rw [resolveFull, hgo] at hrun
      simp only [Prod.mk.injEq, Except.ok.injEq] at hrun
      obtain ⟨hst, hout⟩ := hrun
      subst hst
      rw [← hout]
      rw [getAt_jsDeleteKey_atKey _ _ _ _ hk₁c, getAt_jsDeleteKey_atKey _ _ _ _ hk₁d,
        getAt_jsDeleteKey_atKey _ _ _ _ hk₂c, getAt_jsDeleteKey_atKey _ _ _ _ hk₂d,
        getAt_substTree st₂ r (.atKey k₁ q₁) schema hp₁ hg₁,
        getAt_substTree st₂ r (.atKey k₂ q₂) schema hp₂ hg₂]
      exact ⟨rfl, rfl⟩

/-- C5 witness: the two pure refs `#/foo` of `exShared` both resolve
to the single cached value for `#/foo`. -/
theorem C5_shared_identity_witness :
    getAt (.obj [("foo", .obj [("type", .str "string")]),
        ("bar", .obj [("type", .str "string")]),
        ("baz", .obj [("type", .str "string")])]) (.atKey "bar" .here) =
      getAt (.obj [("foo", .obj [("type", .str "string")]),
        ("bar", .obj [("type", .str "string")]),
        ("baz", .obj [("type", .str "string")])]) (.atKey "baz" .here) ∧
    getAt (.obj [("foo", .obj [("type", .str "string")]),
        ("bar", .obj [("type", .str "string")]),
        ("baz", .obj [("type", .str "string")])]) (.atKey "bar" .here) =
      some ((cacheGet
        (RState.mk [("#/foo", .obj [("type", .str "string")])] ["#/foo"])
        "#/foo").getD JSch.undef) :=
  C5_shared_identity localLoader 4 exShared
    { recursive := some true, rootSchema := some exShared } initState
    (RState.mk [("#/foo", .obj [("type", .str "string")])] ["#/foo"])
    (.obj [("foo", .obj [("type", .str "string")]),
      ("bar", .obj [("type", .str "string")]),
      ("baz", .obj [("type", .str "string")])])
    ["#/foo"] "#/foo" "bar" "baz" .here .here
    rfl rfl rfl (by simp) rfl
    (by simp) (by simp) (by simp) (by simp)
    rfl rfl rfl rfl

/-- C6 (confirmed, spec-modelled).  Under the default configuration
the `mutate` option is absent and treated as `false`: the run returns
the document computed by the resolution algorithm as a fresh
structure, the caller's input document is untouched after the call,
and the result is not the input object by reference.  Only under
`mutate = true` is the input mutated (its content after the call is
the resolved document) and returned by reference.  The `mutate`
implementation is not among the given source files (only its tests
are); `resolveWithMutate` is modelled from §6 of the specification on
top of the translated resolution algorithm. -/
theorem C6_mutate_default (L : Loader) (fuel : Nat) (schema : JSch) (opts : DOptions)
    (st st₁ : RState) (out : JSch)
    (hrun : resolveFull L fuel schema opts st = (st₁, .ok out)) :
    resolveWithMutate L fuel schema opts none st = (st₁, .ok ⟨out, schema, false⟩) ∧
    resolveWithMutate L fuel schema opts (some false) st = (st₁, .ok ⟨out, schema, false⟩) ∧
    resolveWithMutate L fuel schema opts (some true) st = (st₁, .ok ⟨out, out, true⟩) := by
  refine ⟨?_, ?_, ?_⟩ <;> simp [resolveWithMutate, hrun]

/-- C6 witness: a concrete run in both modes. -/
theorem C6_mutate_default_witness :
    resolveWithMutate localLoader 1 (.obj [("type", .str "string")]) emptyOptions none
        initState =
      (initState, .ok ⟨.obj [("type", .str "string")], .obj [("type", .str "string")], false⟩) ∧
    resolveWithMutate localLoader 1 (.obj [("type", .str "string")]) emptyOptions (some true)
        initState =
      (initState, .ok ⟨.obj [("type", .str "string")], .obj [("type", .str "string")], true⟩) := by
  have h := C6_mutate_default localLoader 1 (.obj [("type", .str "string")]) emptyOptions
      initState initState (.obj [("type", .str "string")]) rfl
  exact ⟨h.1, h.2.2⟩

/-- C8 (confirmed).  Error propagation, shown on a two-ref document
whose second ref fails at the Loader and on a one-ref document whose
fetched target fails inside the nested sub-resolution.  In each case
the whole session aborts with exactly the Loader's error `e`
(unwrapped), returning no document; the cache entry written for the
ref resolved before the failure is kept (no rollback) while the
loader-call trace records the failing call; and re-invoking the
session over the returned state skips the already-resolved ref (no
further Loader call for it) and surfaces the same error again. -/
theorem C8_error_surfaces (L : Loader) (e : DerefError) (r₁ r₂ : String) (fuel : Nat)
    (st : RState)
    (h₁e : r₁ ≠ "") (h₂e : r₂ ≠ "") (h₁h : r₁ ≠ "#") (h₂h : r₂ ≠ "#") (h₁₂ : r₁ ≠ r₂)
    (hc₁ : cacheGet st r₁ = none) (hc₂ : cacheGet st r₂ = none)
    (hL₁ : L r₁ (some (mkTwoRefDoc r₁ r₂)) = .ok (.obj [("type", .str "string")]))
    (hL₂ : L r₂ (some (mkTwoRefDoc r₁ r₂)) = .error e)
    (hL₃ : L r₁ (some (mkOneRefDoc r₁)) = .ok (mkNestedFetched r₂))
    (hL₄ : L r₂ (some (mkOneRefDoc r₁)) = .error e) :
    dereference L (fuel + 2) (mkTwoRefDoc r₁ r₂) emptyOptions st =
      (RState.mk (setKV st.cache r₁ (.obj [("type", .str "string")]))
        (st.calls ++ [r₁] ++ [r₂]), .error e) ∧
    dereference L (fuel + 2) (mkTwoRefDoc r₁ r₂) emptyOptions
        (RState.mk (setKV st.cache r₁ (.obj [("type", .str "string")]))
          (st.calls ++ [r₁] ++ [r₂])) =
      (RState.mk (setKV st.cache r₁ (.obj [("type", .str "string")]))
        (st.calls ++ [r₁] ++ [r₂] ++ [r₂]), .error e) ∧
    dereference L (fuel + 2) (mkOneRefDoc r₁) emptyOptions st =
      (RState.mk st.cache (st.calls ++ [r₁] ++ [r₂]), .error e) := by
  simp only [mkTwoRefDoc] at hL₁ hL₂
  simp only [mkOneRefDoc, mkNestedFetched] at hL₃ hL₄
  have hc₁u : lookupKV st.cache r₁ = none := hc₁
  have hc₂u : lookupKV st.cache r₂ = none := hc₂
  refine ⟨?_, ?_, ?_⟩
  · simp [dereference, resolveFull, resolveGo, processRefs, processRef, afterFetch,
      collectRefsE, collectGo, collectKV, collectL, collectStep, lookupKV, truthy,
      ctorOptions, emptyOptions, hasTruthyId, isBoolD, mkTwoRefDoc,
      cacheGet, cacheSet, recordCall, keyMem, fetchedAfterSub, hasDefinedRef,
      hc₁u, hc₂u, hL₁, hL₂, h₁e, h₂e, h₁h, h₂h, Ne.symm h₁₂,
      lookupKV_setKV_self, lookupKV_setKV_ne]
  · simp [dereference, resolveFull, resolveGo, processRefs, processRef, afterFetch,
      collectRefsE, collectGo, collectKV, collectL, collectStep, lookupKV, truthy,
      ctorOptions, emptyOptions, hasTruthyId, isBoolD, mkTwoRefDoc,
      cacheGet, cacheSet, recordCall, keyMem, fetchedAfterSub, hasDefinedRef,
      hc₁u, hc₂u, hL₁, hL₂, h₁e, h₂e, h₁h, h₂h, Ne.symm h₁₂,
      lookupKV_setKV_self, lookupKV_setKV_ne]
  · simp [dereference, resolveFull, resolveGo, processRefs, processRef, afterFetch,
      collectRefsE, collectGo, collectKV, collectL, collectStep, lookupKV, truthy,
      ctorOptions, emptyOptions, hasTruthyId, isBoolD, mkOneRefDoc,
      cacheGet, cacheSet, recordCall, keyMem, fetchedAfterSub, hasDefinedRef,
      hc₁u, hc₂u, hL₃, hL₄, h₁e, h₂e, h₁h, h₂h, Ne.symm h₁₂,
      lookupKV_setKV_self, lookupKV_setKV_ne]

/-- C8 witness: the concrete failing loader `exFailLoader` on refs
`x1` and `x2`, starting from the empty session state. -/
theorem C8_error_surfaces_witness :
    dereference exFailLoader 5 (mkTwoRefDoc "x1" "x2") emptyOptions initState =
      (RState.mk [("x1", .obj [("type", .str "string")])] ["x1", "x2"],
       .error (.loaderFail "transport failure")) ∧
    dereference exFailLoader 5 (mkTwoRefDoc "x1" "x2") emptyOptions
        (RState.mk [("x1", .obj [("type", .str "string")])] ["x1", "x2"]) =
      (RState.mk [("x1", .obj [("type", .str "string")])] ["x1", "x2", "x2"],
       .error (.loaderFail "transport failure")) ∧
    dereference exFailLoader 5 (mkOneRefDoc "x1") emptyOptions initState =
      (RState.mk [] ["x1", "x2"], .error (.loaderFail "transport failure")) := by
  have h := C8_error_surfaces exFailLoader (.loaderFail "transport failure") "x1" "x2" 3
      initState (by simp) (by simp) (by simp) (by simp) (by simp)
      rfl rfl rfl rfl rfl rfl
  refine ⟨?_, ?_, ?_⟩
  · simpa [initState, setKV] using h.1
  · simpa [initState, setKV] using h.2.1
  · simpa [initState, setKV] using h.2.2
